import Mathlib

/-!
Verification development for the kubenv configuration-profile manager
(src/lib.rs).  The Rust code is embedded shallowly:

* Paths are lists of components (`FsPath`); `dir.join name` is `dir ++ [name]`.
* The filesystem is an association list from paths to file data; its list
  order doubles as the directory-enumeration order that `fs::read_dir`
  produces (filesystem-defined, hence an explicit input here).
* The SHA-256 collaborator is a parameter `sha : List Nat → String`
  (content bytes to hex digest), exactly as the spec treats it: an external
  digest function.
* `hashbrown::HashMap` is an association list with first-match lookup;
  the code only ever inserts fresh keys, so cons-insertion is faithful.
* Fallible Rust functions returning `Result<T, String>` become
  `Except String T`.  Methods taking `&self` cannot mutate the store, so
  they take the store as a plain argument and return only the new
  filesystem; `&mut self` methods return a new store.
* Directory creation and `read_dir` failures are not modelled (the claims
  under study do not depend on them); per-entry filesystem data is.
-/

abbrev FsPath := List String

/-- A file on disk: its byte content and whether it can be read
(an unreadable file is one whose digest cannot be computed). -/
structure FileData where
  content : List Nat
  readable : Bool
deriving DecidableEq, Repr

abbrev FS := List (FsPath × FileData)

def FS.get (fs : FS) (p : FsPath) : Option FileData :=
  (List.find? (fun e => e.1 == p) fs).map (fun e => e.2)

/-- Create or overwrite the file at p (fs::File::create + write_all). -/
def FS.setFile (fs : FS) (p : FsPath) (f : FileData) : FS :=
  (p, f) :: List.filter (fun e => e.1 != p) fs

/-- Delete the file at p (fs::remove_file). -/
def FS.eraseFile (fs : FS) (p : FsPath) : FS :=
  List.filter (fun e => e.1 != p) fs

/-- Entries of a directory, in enumeration order: (full path, file name, data).
Mirrors fs::read_dir in update_configs. -/
def FS.readDir (fs : FS) (dir : FsPath) : List (FsPath × String × FileData) :=
  fs.filterMap (fun e =>
    match e.1.getLast? with
    | some fname => if e.1.dropLast == dir then some (e.1, fname, e.2) else none
    | none => none)

/-- get_file_hash (src/lib.rs lines 30-42): sha256::try_digest on a path;
fails when the file is absent or unreadable. -/
def get_file_hash (sha : List Nat → String) (fs : FS) (p : FsPath) :
    Except String String :=
  match FS.get fs p with
  | some f =>
    if f.readable then Except.ok (sha f.content)
    else Except.error "Cannot get hash from file"
  | none => Except.error "Cannot get hash from file"

/-- fs::copy src dst: read src, overwrite dst with its bytes. -/
def fsCopy (fs : FS) (src dst : FsPath) : Except String FS :=
  match FS.get fs src with
  | some f =>
    if f.readable then Except.ok (FS.setFile fs dst ⟨f.content, true⟩)
    else Except.error "Cannot copy"
  | none => Except.error "Cannot copy"

/-! String primitives, implemented on the codepoint list so that they
compute by structural recursion.  Rust compares and slices strings
byte-wise; on UTF-8, byte-wise lexicographic order coincides with
codepoint-list lexicographic order, and the slices taken here (8-char hex
prefixes and the ASCII suffix ".kubeconfig") are ASCII, where bytes and
codepoints coincide. -/

/-- Byte/codepoint lexicographic strict order on strings (Rust str cmp,
used by the PartialOrd impl of KubeConfig, src/lib.rs lines 80-84). -/
def strLt (a b : String) : Bool :=
  go a.data b.data
where
  go : List Char → List Char → Bool
    | _, [] => false
    | [], _ :: _ => true
    | c :: cs, d :: ds =>
      if c.val < d.val then true
      else if d.val < c.val then false
      else go cs ds

/-- Rust str::ends_with. -/
def strEndsWith (s suf : String) : Bool :=
  s.data.drop (s.data.length - suf.data.length) == suf.data

/-- Rust slicing that removes the last n characters (strip_suffix after an
ends_with check). -/
def strDropRight (s : String) (n : Nat) : String :=
  String.mk (s.data.take (s.data.length - n))

/-- Rust slicing [..n] taking the first n characters. -/
def strTake (s : String) (n : Nat) : String :=
  String.mk (s.data.take n)

/-- KubeConfig (src/lib.rs lines 44-49). -/
structure KubeConfig where
  name : String
  path : FsPath
  hash : String
deriving DecidableEq, Repr

instance : Inhabited KubeConfig := ⟨⟨"", [], ""⟩⟩

/-- KubeConfig::new (src/lib.rs lines 52-59): a missing name defaults to the
first 8 characters of the hex digest. -/
def KubeConfig.new (path : FsPath) (hash : String) (name : Option String) :
    KubeConfig :=
  match name with
  | some n => ⟨n, path, hash⟩
  | none => ⟨strTake hash 8, path, hash⟩

/-- KubEnv (src/lib.rs lines 86-93). -/
structure KubEnv where
  kube_dir : FsPath
  kubenv_dir : FsPath
  current_config : Option KubeConfig
  configs : List KubeConfig
  configs_by_name : List (String × KubeConfig)
  configs_by_hash : List (String × KubeConfig)
deriving DecidableEq, Repr

/-- KubEnv::new (src/lib.rs lines 96-114) with both directories supplied
(the home-directory default resolution is an external collaborator). -/
def KubEnv.new (kubenv_dir kube_dir : FsPath) : KubEnv :=
  ⟨kube_dir, kubenv_dir, none, [], [], []⟩

/-- First-match association-list lookup, the behaviour of HashMap::get. -/
def lookupA (m : List (String × KubeConfig)) (k : String) : Option KubeConfig :=
  (List.find? (fun e => e.1 == k) m).map (fun e => e.2)

def KubEnv.get_config_by_name (env : KubEnv) (name : String) : Option KubeConfig :=
  lookupA env.configs_by_name name

def KubEnv.get_config_by_hash (env : KubEnv) (hash : String) : Option KubeConfig :=
  lookupA env.configs_by_hash hash

/-- The while loop of KubEnv::add (src/lib.rs lines 315-321), parametrised by
the current index value: while index > 0 and the new config sorts before
configs[index - 1], decrement index. -/
def insertIndexLoop (configs : List KubeConfig) (kc : KubeConfig) : Nat → Nat
  | 0 => 0
  | i + 1 =>
    if strLt kc.name (configs.getD i default).name then insertIndexLoop configs kc i
    else i + 1

/-- The insertion index computed by KubEnv::add: starts the scan at len - 1
(not len) when the vector is nonempty. -/
def computeInsertIndex (configs : List KubeConfig) (kc : KubeConfig) : Nat :=
  if configs.length > 0 then insertIndexLoop configs kc (configs.length - 1)
  else 0

/-- KubEnv::add (src/lib.rs lines 304-335): reject duplicate name, then
duplicate hash; otherwise insert into the vector at the scanned index and
record the config in both lookup maps. -/
def KubEnv.add (env : KubEnv) (kc : KubeConfig) : Except String KubEnv :=
  match env.get_config_by_name kc.name with
  | some kc0 => Except.error ("Config with name " ++ kc0.name ++ " already exists")
  | none =>
    match env.get_config_by_hash kc.hash with
    | some kc0 => Except.error ("Config already exists with name " ++ kc0.name)
    | none =>
      Except.ok { env with
        configs := env.configs.insertIdx (computeInsertIndex env.configs kc) kc
        configs_by_name := (kc.name, kc) :: env.configs_by_name
        configs_by_hash := (kc.hash, kc) :: env.configs_by_hash }

/-- The active-config path kube_dir.join("config"). -/
def KubEnv.configFile (env : KubEnv) : FsPath := env.kube_dir ++ ["config"]

/-- KubEnv::get_content (src/lib.rs lines 124-137): look up by name, open the
backing file. -/
def KubEnv.get_content (env : KubEnv) (fs : FS) (name : String) :
    Except String (List Nat) :=
  match env.get_config_by_name name with
  | none => Except.error ("Cannot find config with name " ++ name)
  | some kc =>
    match FS.get fs kc.path with
    | some f => Except.ok f.content
    | none => Except.error "Cannot open file"

/-- The name-resolution step of KubEnv::set_content (src/lib.rs lines
149-157): an explicit name is validated against the name map; a missing name
defaults to the full hex digest. -/
def resolveImportName (env : KubEnv) (hash : String) :
    Option String → Except String String
  | some n =>
    match env.get_config_by_name n with
    | some kc => Except.error ("Config with name " ++ kc.name ++ " already exists")
    | none => Except.ok n
  | none => Except.ok hash

/-- KubEnv::set_content (src/lib.rs lines 139-177), i.e. import: digest the
content, reject a duplicate digest, resolve the name, then write
kubenv_dir/(name ++ ".kubeconfig").  Takes &self: the index is untouched. -/
def KubEnv.set_content (sha : List Nat → String) (env : KubEnv) (fs : FS)
    (name : Option String) (content : List Nat) : Except String FS :=
  let hash := sha content
  match env.get_config_by_hash hash with
  | some kc => Except.error ("Config already exists with name: " ++ kc.name)
  | none =>
    match resolveImportName env hash name with
    | Except.error e => Except.error e
    | Except.ok nm =>
      Except.ok (FS.setFile fs (env.kubenv_dir ++ [nm ++ ".kubeconfig"]) ⟨content, true⟩)

/-- KubEnv::apply (src/lib.rs lines 179-199): look up by name; if the active
file hashes to the target's hash, fail as already applied; otherwise
(including when the active file cannot be hashed) copy onto the active path. -/
def KubEnv.apply (sha : List Nat → String) (env : KubEnv) (fs : FS)
    (name : String) : Except String FS :=
  match env.get_config_by_name name with
  | none => Except.error ("Cannot find config with name " ++ name)
  | some kc =>
    match get_file_hash sha fs env.configFile with
    | Except.ok h =>
      if h == kc.hash then Except.error ("Config " ++ name ++ " already applied")
      else fsCopy fs kc.path env.configFile
    | Except.error _ => fsCopy fs kc.path env.configFile

/-- KubEnv::remove (src/lib.rs lines 201-215): look up by name, delete the
backing file recorded in the index entry. -/
def KubEnv.remove (env : KubEnv) (fs : FS) (name : String) : Except String FS :=
  match env.get_config_by_name name with
  | none => Except.error ("Cannot find config with name " ++ name)
  | some kc =>
    match FS.get fs kc.path with
    | some _ => Except.ok (FS.eraseFile fs kc.path)
    | none => Except.error ("Cannot remove config with name " ++ kc.name)

/-- The for loop of KubEnv::update_configs (src/lib.rs lines 263-286): keep
entries whose file name ends in ".kubeconfig", derive the name by stripping
the suffix, hash the file (skipping entries that cannot be hashed), and add
(skipping entries the add rejects). -/
def processEntries (sha : List Nat → String) (fs : FS) :
    List (FsPath × String × FileData) → KubEnv → KubEnv
  | [], env => env
  | entry :: rest, env =>
    if strEndsWith entry.2.1 ".kubeconfig" then
      match get_file_hash sha fs entry.1 with
      | Except.ok h =>
        match env.add (KubeConfig.new entry.1 h (some (strDropRight entry.2.1 11))) with
        | Except.ok env1 => processEntries sha fs rest env1
        | Except.error _ => processEntries sha fs rest env
      | Except.error _ => processEntries sha fs rest env
    else processEntries sha fs rest env

/-- KubEnv::update_configs (src/lib.rs lines 246-289): clear the three
collections, then scan the profile directory. -/
def KubEnv.update_configs (sha : List Nat → String) (env : KubEnv) (fs : FS) :
    KubEnv :=
  processEntries sha fs (FS.readDir fs env.kubenv_dir)
    { env with configs := [], configs_by_name := [], configs_by_hash := [] }

/-- KubEnv::update_current_config (src/lib.rs lines 291-302): hash the active
file (propagating failure without touching current_config); when it exists,
record it as current under its digest-prefix name and try to add it to the
index, ignoring the result. -/
def KubEnv.update_current_config (sha : List Nat → String) (env : KubEnv)
    (fs : FS) : Except String KubEnv :=
  match get_file_hash sha fs env.configFile with
  | Except.error e => Except.error e
  | Except.ok h =>
    if (FS.get fs env.configFile).isSome then
      let kc := KubeConfig.new env.configFile h none
      let env1 := { env with current_config := some kc }
      match env1.add kc with
      | Except.ok env2 => Except.ok env2
      | Except.error _ => Except.ok env1
    else Except.ok env

/-- KubEnv::sync (src/lib.rs lines 217-236): rebuild the index, then update
the current config, discarding any error from that second step. -/
def KubEnv.sync (sha : List Nat → String) (env : KubEnv) (fs : FS) :
    Except String KubEnv :=
  let env1 := env.update_configs sha fs
  match env1.update_current_config sha fs with
  | Except.ok env2 => Except.ok env2
  | Except.error _ => Except.ok env1

/-- The store a caller observes after sync (main.rs keeps the store exactly
when sync returns Ok). -/
def KubEnv.syncRun (sha : List Nat → String) (env : KubEnv) (fs : FS) : KubEnv :=
  match env.sync sha fs with
  | Except.ok env1 => env1
  | Except.error _ => env

/-- The whole system state: the in-memory store and the filesystem. -/
structure Sys where
  env : KubEnv
  fs : FS
deriving DecidableEq, Repr

/-- Run import against the system: on error the filesystem is unchanged; the
store is untouched either way (set_content takes &self). -/
def Sys.importRun (sha : List Nat → String) (s : Sys) (name : Option String)
    (content : List Nat) : Sys :=
  match s.env.set_content sha s.fs name content with
  | Except.ok fs1 => ⟨s.env, fs1⟩
  | Except.error _ => s

/-- Run remove against the system. -/
def Sys.removeRun (s : Sys) (name : String) : Sys :=
  match s.env.remove s.fs name with
  | Except.ok fs1 => ⟨s.env, fs1⟩
  | Except.error _ => s

/-- Run apply against the system. -/
def Sys.applyRun (sha : List Nat → String) (s : Sys) (name : String) : Sys :=
  match s.env.apply sha s.fs name with
  | Except.ok fs1 => ⟨s.env, fs1⟩
  | Except.error _ => s

/-- A sequence of insertions into the index: a rejected insertion leaves the
store as it was (the Rust add returns Err before any mutation). -/
def KubEnv.addSeq (env : KubEnv) : List KubeConfig → KubEnv
  | [] => env
  | kc :: rest =>
    KubEnv.addSeq (match env.add kc with
                   | Except.ok env1 => env1
                   | Except.error _ => env) rest

/-! Concrete fixtures used by the counterexamples and witnesses below.
The digest strings play the role of 64-character hex digests. -/

def dA : String := "aaaaaaaaaaaaaaaaaaaaaaaaaaaaaaaaaaaaaaaaaaaaaaaaaaaaaaaaaaaaaaaa"

def dB : String := "bbbbbbbbbbbbbbbbbbbbbbbbbbbbbbbbbbbbbbbbbbbbbbbbbbbbbbbbbbbbbbbb"

def dC : String := "cccccccccccccccccccccccccccccccccccccccccccccccccccccccccccccccc"

/-- A concrete digest collaborator for the fixtures: content [1] hashes to dA,
[2] to dB, everything else to dC. -/
def shaW (content : List Nat) : String :=
  if content = [1] then dA else if content = [2] then dB else dC

def kubeP : FsPath := ["home", ".kube"]

def kubenvP : FsPath := ["home", ".kube", "kubenv"]

/-- A freshly constructed store over the fixture directories. -/
def env0C : KubEnv := KubEnv.new kubenvP kubeP

/-- Scenario filesystem: a.kubeconfig (content [1], digest dA), b.kubeconfig
(content [2], digest dB), active config file with content [1] (digest dA);
enumeration order a before b. -/
def fsC : FS :=
  [(kubenvP ++ ["a.kubeconfig"], ⟨[1], true⟩),
   (kubenvP ++ ["b.kubeconfig"], ⟨[2], true⟩),
   (kubeP ++ ["config"], ⟨[1], true⟩)]

/-- The same filesystem with enumeration order b before a. -/
def fsCrev : FS :=
  [(kubenvP ++ ["b.kubeconfig"], ⟨[2], true⟩),
   (kubenvP ++ ["a.kubeconfig"], ⟨[1], true⟩),
   (kubeP ++ ["config"], ⟨[1], true⟩)]

/-- A filesystem holding only the active-config file (content [1]). -/
def fsActiveOnly : FS := [(kubeP ++ ["config"], ⟨[1], true⟩)]

/-- A filesystem whose active-config file exists but cannot be read. -/
def fsBad : FS := [(kubeP ++ ["config"], ⟨[9], false⟩)]

def kcA : KubeConfig := ⟨"a", kubenvP ++ ["a.kubeconfig"], dA⟩

def kcB : KubeConfig := ⟨"b", kubenvP ++ ["b.kubeconfig"], dB⟩

/-! Helper lemmas about the association-list lookups and the filesystem. -/

theorem lookupA_cons_self (m : List (String × KubeConfig)) (k : String)
    (v : KubeConfig) : lookupA ((k, v) :: m) k = some v := by
  simp [lookupA, List.find?]

theorem lookupA_isSome_iff (m : List (String × KubeConfig)) (k : String) :
    (lookupA m k).isSome ↔ k ∈ m.map Prod.fst := by
  induction m with
  | nil => simp [lookupA]
  | cons e rest ih =>
    by_cases h : e.1 = k
    · simp [lookupA, List.find?, h]
    · have h1 : (e.1 == k) = false := by simp [h]
      simp only [lookupA, List.find?, h1] at ih ⊢
      simp only [List.map_cons, List.mem_cons, ih]
      constructor
      · exact Or.inr
      · rintro (h2 | h2)
        · exact absurd h2.symm h
        · exact h2

theorem lookupA_eq_none_iff (m : List (String × KubeConfig)) (k : String) :
    lookupA m k = none ↔ k ∉ m.map Prod.fst := by
  rw [← lookupA_isSome_iff]
  cases lookupA m k <;> simp

theorem eraseFile_get_self (fs : FS) (q : FsPath) :
    FS.get (FS.eraseFile fs q) q = none := by
  induction fs with
  | nil => rfl
  | cons e rest ih =>
    unfold FS.eraseFile FS.get at ih ⊢
    by_cases h : e.1 = q
    · have h1 : (e.1 != q) = false := by simp [h]
      rw [List.filter_cons, h1]
      exact ih
    · have h1 : (e.1 != q) = true := by simp [h]
      have h2 : (e.1 == q) = false := by simp [h]
      rw [List.filter_cons, h1]
      simp only [if_true, List.find?, h2]
      exact ih

theorem eraseFile_get_other (fs : FS) (q p : FsPath) (hpq : p ≠ q) :
    FS.get (FS.eraseFile fs q) p = FS.get fs p := by
  induction fs with
  | nil => rfl
  | cons e rest ih =>
    unfold FS.eraseFile FS.get at ih ⊢
    by_cases h : e.1 = q
    · have h1 : (e.1 != q) = false := by simp [h]
      have h2 : (e.1 == p) = false := by
        simp [h]
        exact fun hc => hpq hc.symm
      rw [List.filter_cons, h1]
      simp only [Bool.false_eq_true, if_false, List.find?, h2]
      exact ih
    · have h1 : (e.1 != q) = true := by simp [h]
      rw [List.filter_cons, h1]
      simp only [if_true, List.find?]
      cases h2 : e.1 == p
      · exact ih
      · rfl

theorem get_file_hash_ok_elim {sha : List Nat → String} {fs : FS} {p : FsPath}
    {h : String} (hh : get_file_hash sha fs p = Except.ok h) :
    ∃ f, FS.get fs p = some f ∧ f.readable = true ∧ sha f.content = h := by
  unfold get_file_hash at hh
  cases hf : FS.get fs p <;> rw [hf] at hh
  · simp at hh
  · rename_i f
    by_cases hr : f.readable <;> simp [hr] at hh
    exact ⟨f, rfl, hr, hh⟩

/-! Helper lemmas about KubEnv.add. -/

theorem insertIndexLoop_le (configs : List KubeConfig) (kc : KubeConfig)
    (i : Nat) : insertIndexLoop configs kc i ≤ i := by
  induction i with
  | zero => exact Nat.le_refl 0
  | succ n ih =>
    unfold insertIndexLoop
    by_cases h : strLt kc.name (configs.getD n default).name
    · simp only [h, if_true]
      exact Nat.le_succ_of_le ih
    · simp only [h, if_false]
      exact Nat.le_refl _

theorem computeInsertIndex_le (configs : List KubeConfig) (kc : KubeConfig) :
    computeInsertIndex configs kc ≤ configs.length := by
  unfold computeInsertIndex
  by_cases h : configs.length > 0
  · simp only [h, if_true]
    calc insertIndexLoop configs kc (configs.length - 1) ≤ configs.length - 1 :=
          insertIndexLoop_le configs kc (configs.length - 1)
      _ ≤ configs.length := Nat.sub_le _ _
  · simp only [h, if_false]
    exact Nat.zero_le _

theorem add_ok_elim {env env' : KubEnv} {kc : KubeConfig}
    (h : env.add kc = Except.ok env') :
    env.get_config_by_name kc.name = none ∧
    env.get_config_by_hash kc.hash = none ∧
    env' = { env with
      configs := env.configs.insertIdx (computeInsertIndex env.configs kc) kc
      configs_by_name := (kc.name, kc) :: env.configs_by_name
      configs_by_hash := (kc.hash, kc) :: env.configs_by_hash } := by
  unfold KubEnv.add at h
  cases h1 : env.get_config_by_name kc.name <;> rw [h1] at h
  · cases h2 : env.get_config_by_hash kc.hash <;> rw [h2] at h
    · refine ⟨rfl, rfl, ?_⟩
      cases h
      rfl
    · simp at h
  · simp at h

theorem add_of_fresh {env : KubEnv} {kc : KubeConfig}
    (h1 : env.get_config_by_name kc.name = none)
    (h2 : env.get_config_by_hash kc.hash = none) :
    env.add kc = Except.ok { env with
      configs := env.configs.insertIdx (computeInsertIndex env.configs kc) kc
      configs_by_name := (kc.name, kc) :: env.configs_by_name
      configs_by_hash := (kc.hash, kc) :: env.configs_by_hash } := by
  unfold KubEnv.add
  rw [h1, h2]

theorem add_perm_configs {env env' : KubEnv} {kc : KubeConfig}
    (h : env.add kc = Except.ok env') : env'.configs.Perm (kc :: env.configs) := by
  obtain ⟨-, -, he⟩ := add_ok_elim h
  rw [he]
  exact List.perm_insertIdx kc env.configs (computeInsertIndex_le env.configs kc)

/-! The index-coherence invariant: the vector holds pairwise-distinct names
and hashes, and the key sets of the two lookup maps are exactly the names
and hashes of the vector. -/

def IndexInv (env : KubEnv) : Prop :=
  (env.configs.map KubeConfig.name).Nodup ∧
  (env.configs.map KubeConfig.hash).Nodup ∧
  (env.configs_by_name.map Prod.fst).Perm (env.configs.map KubeConfig.name) ∧
  (env.configs_by_hash.map Prod.fst).Perm (env.configs.map KubeConfig.hash)

theorem indexInv_empty (kubenv_dir kube_dir : FsPath) :
    IndexInv (KubEnv.new kubenv_dir kube_dir) :=
  ⟨List.nodup_nil, List.nodup_nil, List.Perm.refl _, List.Perm.refl _⟩

theorem get_config_by_name_none_iff {env : KubEnv} (hinv : IndexInv env)
    (n : String) :
    env.get_config_by_name n = none ↔ n ∉ env.configs.map KubeConfig.name := by
  rw [KubEnv.get_config_by_name, lookupA_eq_none_iff]
  constructor
  · exact fun h hc => h (hinv.2.2.1.mem_iff.mpr hc)
  · exact fun h hc => h (hinv.2.2.1.mem_iff.mp hc)

theorem get_config_by_hash_none_iff {env : KubEnv} (hinv : IndexInv env)
    (h : String) :
    env.get_config_by_hash h = none ↔ h ∉ env.configs.map KubeConfig.hash := by
  rw [KubEnv.get_config_by_hash, lookupA_eq_none_iff]
  constructor
  · exact fun h1 hc => h1 (hinv.2.2.2.mem_iff.mpr hc)
  · exact fun h1 hc => h1 (hinv.2.2.2.mem_iff.mp hc)

theorem indexInv_add {env env' : KubEnv} {kc : KubeConfig}
    (hinv : IndexInv env) (h : env.add kc = Except.ok env') : IndexInv env' := by
  obtain ⟨hn, hh, he⟩ := add_ok_elim h
  have hperm : env'.configs.Perm (kc :: env.configs) := add_perm_configs h
  have hpn : (env'.configs.map KubeConfig.name).Perm
      (kc.name :: env.configs.map KubeConfig.name) := hperm.map KubeConfig.name
  have hph : (env'.configs.map KubeConfig.hash).Perm
      (kc.hash :: env.configs.map KubeConfig.hash) := hperm.map KubeConfig.hash
  have hnmem : kc.name ∉ env.configs.map KubeConfig.name :=
    (get_config_by_name_none_iff hinv kc.name).mp hn
  have hhmem : kc.hash ∉ env.configs.map KubeConfig.hash :=
    (get_config_by_hash_none_iff hinv kc.hash).mp hh
  refine ⟨?_, ?_, ?_, ?_⟩
  · exact hpn.nodup_iff.mpr (List.nodup_cons.mpr ⟨hnmem, hinv.1⟩)
  · exact hph.nodup_iff.mpr (List.nodup_cons.mpr ⟨hhmem, hinv.2.1⟩)
  · have hbn : env'.configs_by_name = (kc.name, kc) :: env.configs_by_name := by
      rw [he]
    rw [hbn, List.map_cons]
    exact List.Perm.trans (List.Perm.cons kc.name hinv.2.2.1) hpn.symm
  · have hbh : env'.configs_by_hash = (kc.hash, kc) :: env.configs_by_hash := by
      rw [he]
    rw [hbh, List.map_cons]
    exact List.Perm.trans (List.Perm.cons kc.hash hinv.2.2.2) hph.symm

theorem indexInv_addSeq (env : KubEnv) (seq : List KubeConfig)
    (hinv : IndexInv env) : IndexInv (KubEnv.addSeq env seq) := by
  induction seq generalizing env with
  | nil => exact hinv
  | cons kc rest ih =>
    show IndexInv (KubEnv.addSeq _ rest)
    cases h : env.add kc with
    | ok env1 =>
      simp only [KubEnv.addSeq, h]
      exact ih env1 (indexInv_add hinv h)
    | error e =>
      simp only [KubEnv.addSeq, h]
      exact ih env hinv

theorem add_error_of_collision {env : KubEnv} (hinv : IndexInv env)
    (kc : KubeConfig)
    (hc : kc.name ∈ env.configs.map KubeConfig.name ∨
          kc.hash ∈ env.configs.map KubeConfig.hash) :
    ∃ msg, env.add kc = Except.error msg := by
  cases h1 : env.get_config_by_name kc.name with
  | some kc0 =>
    refine ⟨"Config with name " ++ kc0.name ++ " already exists", ?_⟩
    unfold KubEnv.add
    rw [h1]
  | none =>
    cases h2 : env.get_config_by_hash kc.hash with
    | some kc0 =>
      refine ⟨"Config already exists with name " ++ kc0.name, ?_⟩
      unfold KubEnv.add
      rw [h1, h2]
    | none =>
      exfalso
      cases hc with
      | inl hc => exact (get_config_by_name_none_iff hinv kc.name).mp h1 hc
      | inr hc => exact (get_config_by_hash_none_iff hinv kc.hash).mp h2 hc

theorem addSeq_append (env : KubEnv) (s t : List KubeConfig) :
    KubEnv.addSeq env (s ++ t) = KubEnv.addSeq (KubEnv.addSeq env s) t := by
  induction s generalizing env with
  | nil => rfl
  | cons kc rest ih =>
    simp only [List.cons_append, KubEnv.addSeq]
    exact ih _

/-! Field-preservation lemmas: neither add nor the directory scan touches
current_config or the two directory paths. -/

theorem add_ok_outer_fields {env env' : KubEnv} {kc : KubeConfig}
    (h : env.add kc = Except.ok env') :
    env'.current_config = env.current_config ∧ env'.kube_dir = env.kube_dir ∧
    env'.kubenv_dir = env.kubenv_dir := by
  obtain ⟨-, -, he⟩ := add_ok_elim h
  rw [he]
  exact ⟨rfl, rfl, rfl⟩

theorem processEntries_cons (sha : List Nat → String) (fs : FS)
    (entry : FsPath × String × FileData)
    (rest : List (FsPath × String × FileData)) (env : KubEnv) :
    processEntries sha fs (entry :: rest) env =
      if strEndsWith entry.2.1 ".kubeconfig" then
        match get_file_hash sha fs entry.1 with
        | Except.ok h =>
          match env.add (KubeConfig.new entry.1 h (some (strDropRight entry.2.1 11))) with
          | Except.ok env1 => processEntries sha fs rest env1
          | Except.error _ => processEntries sha fs rest env
        | Except.error _ => processEntries sha fs rest env
      else processEntries sha fs rest env := rfl

theorem processEntries_outer_fields (sha : List Nat → String) (fs : FS)
    (entries : List (FsPath × String × FileData)) :
    ∀ env : KubEnv,
    (processEntries sha fs entries env).current_config = env.current_config ∧
    (processEntries sha fs entries env).kube_dir = env.kube_dir ∧
    (processEntries sha fs entries env).kubenv_dir = env.kubenv_dir := by
  induction entries with
  | nil => exact fun env => ⟨rfl, rfl, rfl⟩
  | cons entry rest ih =>
    intro env
    rw [processEntries_cons]
    split
    · split
      · split
        · next env1 h3 =>
          obtain ⟨c1, c2, c3⟩ := add_ok_outer_fields h3
          obtain ⟨d1, d2, d3⟩ := ih env1
          exact ⟨d1.trans c1, d2.trans c2, d3.trans c3⟩
        · exact ih env
      · exact ih env
    · exact ih env

theorem update_configs_outer_fields (sha : List Nat → String) (env : KubEnv)
    (fs : FS) :
    (env.update_configs sha fs).current_config = env.current_config ∧
    (env.update_configs sha fs).kube_dir = env.kube_dir ∧
    (env.update_configs sha fs).kubenv_dir = env.kubenv_dir :=
  processEntries_outer_fields sha fs (FS.readDir fs env.kubenv_dir) _

/-- C1: inserting a profile named a and then one named b into an empty store
leaves the index vector as [b, a]: the tail scan of KubEnv::add starts at
len - 1 instead of len, so an element belonging at the end is placed one
slot too early and the ascending-by-name order is broken. -/
theorem c1_insert_tail_misplaced :
    (KubEnv.addSeq env0C [kcA, kcB]).configs.map KubeConfig.name = ["b", "a"] ∧
    ¬ List.Sorted (fun a b => a ≤ b)
        ((KubEnv.addSeq env0C [kcA, kcB]).configs.map KubeConfig.name) := by
  constructor
  · rfl
  · intro hs
    have hba : ("b" : String) ≤ "a" :=
      List.rel_of_sorted_cons hs "a" (List.mem_singleton.mpr rfl)
    have : ("b" : String).toList ≤ "a".toList := String.le_iff_toList_le.mp hba
    revert this
    decide

/-- C2 counterexample: in the scenario (a.kubeconfig with digest dA,
b.kubeconfig with digest dB, active config file with digest dA, enumeration
order a before b) the synced store's current config is named by the 8-char
digest prefix of dA, not a, and list() yields [b, a], not [a, b]. -/
theorem c2_counterexample :
    (KubEnv.syncRun shaW env0C fsC).current_config.map KubeConfig.name =
      some "aaaaaaaa" ∧
    (KubEnv.syncRun shaW env0C fsC).current_config.map KubeConfig.name ≠
      some "a" ∧
    (KubEnv.syncRun shaW env0C fsC).configs.map KubeConfig.name = ["b", "a"] := by
  refine ⟨rfl, ?_, rfl⟩
  intro h
  rw [show (KubEnv.syncRun shaW env0C fsC).current_config.map KubeConfig.name =
      some "aaaaaaaa" from rfl] at h
  exact absurd (Option.some.inj h) (by decide)

/-- C2 amended: after sync in the scenario, currentConfig() is a fresh
profile for the active-config path itself, named with the first 8 characters
of dA and carrying digest dA (the indexed profile a is not returned); list()
is [b, a] when the directory enumerates a before b and [a, b] when it
enumerates b before a (the tail-insertion off-by-one of C1). -/
theorem c2_amended_sync_behavior :
    (KubEnv.syncRun shaW env0C fsC).current_config =
      some ⟨strTake dA 8, kubeP ++ ["config"], dA⟩ ∧
    (KubEnv.syncRun shaW env0C fsC).configs.map KubeConfig.name = ["b", "a"] ∧
    (KubEnv.syncRun shaW env0C fsCrev).configs.map KubeConfig.name = ["a", "b"] ∧
    (KubEnv.syncRun shaW env0C fsCrev).current_config =
      some ⟨strTake dA 8, kubeP ++ ["config"], dA⟩ :=
  ⟨rfl, rfl, rfl, rfl⟩

/-- C3 counterexample: after syncing a store whose profile directory is empty
while the active-config file exists with digest dA, the index holds an entry
named by the digest prefix whose backing path is the active-config file
itself; remove on that name deletes the active-config file. -/
theorem c3_counterexample :
    FS.get fsActiveOnly (kubeP ++ ["config"]) = some ⟨[1], true⟩ ∧
    KubEnv.remove (KubEnv.syncRun shaW env0C fsActiveOnly) fsActiveOnly
      "aaaaaaaa" = Except.ok [] ∧
    FS.get ((Sys.removeRun ⟨KubEnv.syncRun shaW env0C fsActiveOnly,
      fsActiveOnly⟩ "aaaaaaaa").fs) (kubeP ++ ["config"]) = none :=
  ⟨rfl, rfl, rfl⟩

/-- C3 amended: remove(name) deletes exactly the backing file recorded in
the index entry for that name and touches no other path; for profiles
discovered in the profile directory that file lies inside the profile
directory, but for the entry that sync creates for the active-config path
the recorded backing file is the active-config file itself, so remove can
delete the active-config file (as the counterexample shows). -/
theorem c3_remove_deletes_indexed_path (env : KubEnv) (fs : FS) (name : String)
    (kc : KubeConfig) (h : env.get_config_by_name name = some kc)
    (f : FileData) (hex : FS.get fs kc.path = some f) :
    KubEnv.remove env fs name = Except.ok (FS.eraseFile fs kc.path) ∧
    FS.get (FS.eraseFile fs kc.path) kc.path = none ∧
    ∀ p : FsPath, p ≠ kc.path →
      FS.get (FS.eraseFile fs kc.path) p = FS.get fs p := by
  refine ⟨?_, eraseFile_get_self fs kc.path, fun p hp => eraseFile_get_other fs kc.path p hp⟩
  unfold KubEnv.remove
  rw [h]
  dsimp only
  rw [hex]

/-- Witness for C3's amended theorem: the synced active-file entry of the
counterexample satisfies its hypotheses, and remove deletes the active path. -/
theorem c3_remove_deletes_indexed_path_witness :
    (KubEnv.syncRun shaW env0C fsActiveOnly).get_config_by_name "aaaaaaaa" =
      some ⟨"aaaaaaaa", kubeP ++ ["config"], dA⟩ ∧
    FS.get fsActiveOnly (kubeP ++ ["config"]) = some ⟨[1], true⟩ ∧
    KubEnv.remove (KubEnv.syncRun shaW env0C fsActiveOnly) fsActiveOnly
      "aaaaaaaa" = Except.ok (FS.eraseFile fsActiveOnly (kubeP ++ ["config"])) :=
  ⟨rfl, rfl,
    (c3_remove_deletes_indexed_path (KubEnv.syncRun shaW env0C fsActiveOnly)
      fsActiveOnly "aaaaaaaa" ⟨"aaaaaaaa", kubeP ++ ["config"], dA⟩ rfl
      ⟨[1], true⟩ rfl).1⟩

/-- C4 counterexample: importing content [1] (digest dA) with no explicit
name writes the file under the full 64-character digest, not its first 8
characters; no file appears under the 8-character prefix name. -/
theorem c4_counterexample :
    KubEnv.set_content shaW env0C [] none [1] =
      Except.ok [(kubenvP ++ [dA ++ ".kubeconfig"], ⟨[1], true⟩)] ∧
    FS.get ((Sys.importRun shaW ⟨env0C, []⟩ none [1]).fs)
      (kubenvP ++ [strTake dA 8 ++ ".kubeconfig"]) = none ∧
    dA ≠ strTake dA 8 :=
  ⟨rfl, rfl, by decide⟩

/-- C4 amended: when the caller supplies no name and the content digest is
new, import names the profile (and the file, before the managed suffix) with
the full hex digest of the content, not its first 8 characters; only the
entry sync creates for the active-config path (KubeConfig::new with no name)
uses the 8-character digest prefix. -/
theorem c4_import_default_name_full_digest (sha : List Nat → String)
    (env : KubEnv) (fs : FS) (content : List Nat)
    (h : env.get_config_by_hash (sha content) = none) :
    KubEnv.set_content sha env fs none content =
      Except.ok (FS.setFile fs
        (env.kubenv_dir ++ [sha content ++ ".kubeconfig"]) ⟨content, true⟩) := by
  unfold KubEnv.set_content
  dsimp only
  rw [h]
  rfl

/-- Witness for C4's amended theorem at the concrete fixture. -/
theorem c4_import_default_name_full_digest_witness :
    env0C.get_config_by_hash (shaW [1]) = none ∧
    KubEnv.set_content shaW env0C [] none [1] =
      Except.ok (FS.setFile [] (kubenvP ++ [shaW [1] ++ ".kubeconfig"])
        ⟨[1], true⟩) :=
  ⟨rfl, c4_import_default_name_full_digest shaW env0C [] [1] rfl⟩

/-- C5: starting from any store satisfying the index invariant (in
particular a fresh one), after any sequence of insertions no two indexed
profiles share a name or a hash, and an insertion colliding on name or hash
fails with a duplicate error and leaves the store exactly as it was. -/
theorem c5_unique_names_and_hashes (env : KubEnv) (seq : List KubeConfig)
    (hinv : IndexInv env) :
    ((KubEnv.addSeq env seq).configs.map KubeConfig.name).Nodup ∧
    ((KubEnv.addSeq env seq).configs.map KubeConfig.hash).Nodup ∧
    ∀ kc : KubeConfig,
      (kc.name ∈ (KubEnv.addSeq env seq).configs.map KubeConfig.name ∨
       kc.hash ∈ (KubEnv.addSeq env seq).configs.map KubeConfig.hash) →
      (∃ msg, (KubEnv.addSeq env seq).add kc = Except.error msg) ∧
      KubEnv.addSeq env (seq ++ [kc]) = KubEnv.addSeq env seq := by
  have hinv1 : IndexInv (KubEnv.addSeq env seq) := indexInv_addSeq env seq hinv
  refine ⟨hinv1.1, hinv1.2.1, fun kc hc => ?_⟩
  obtain ⟨msg, hmsg⟩ := add_error_of_collision hinv1 kc hc
  refine ⟨⟨msg, hmsg⟩, ?_⟩
  rw [addSeq_append]
  show KubEnv.addSeq _ [kc] = _
  simp only [KubEnv.addSeq, hmsg]

/-- Witness for C5 at a fresh store and a two-element insertion sequence. -/
theorem c5_unique_names_and_hashes_witness :
    IndexInv env0C ∧
    (((KubEnv.addSeq env0C [kcA, kcB]).configs.map KubeConfig.name).Nodup ∧
     ((KubEnv.addSeq env0C [kcA, kcB]).configs.map KubeConfig.hash).Nodup ∧
     ∀ kc : KubeConfig,
       (kc.name ∈ (KubEnv.addSeq env0C [kcA, kcB]).configs.map KubeConfig.name ∨
        kc.hash ∈ (KubEnv.addSeq env0C [kcA, kcB]).configs.map KubeConfig.hash) →
       (∃ msg, (KubEnv.addSeq env0C [kcA, kcB]).add kc = Except.error msg) ∧
       KubEnv.addSeq env0C ([kcA, kcB] ++ [kc]) = KubEnv.addSeq env0C [kcA, kcB]) :=
  ⟨indexInv_empty kubenvP kubeP,
   c5_unique_names_and_hashes env0C [kcA, kcB] (indexInv_empty kubenvP kubeP)⟩

/-- C6: apply(name) fails with the not-found error and leaves the filesystem
untouched when the name is not indexed; when the name is indexed and the
active-config file hashes to the target's digest it fails with the
already-applied error, again leaving the filesystem untouched; when the
active-config file cannot be hashed (missing or unreadable), apply proceeds
with the copy of the target's backing file onto the active path. -/
theorem c6_apply_guards (sha : List Nat → String) (env : KubEnv) (fs : FS)
    (name : String) :
    (env.get_config_by_name name = none →
      env.apply sha fs name =
        Except.error ("Cannot find config with name " ++ name) ∧
      Sys.applyRun sha ⟨env, fs⟩ name = ⟨env, fs⟩) ∧
    (∀ kc : KubeConfig, env.get_config_by_name name = some kc →
      (get_file_hash sha fs env.configFile = Except.ok kc.hash →
        env.apply sha fs name =
          Except.error ("Config " ++ name ++ " already applied") ∧
        Sys.applyRun sha ⟨env, fs⟩ name = ⟨env, fs⟩) ∧
      (∀ e : String, get_file_hash sha fs env.configFile = Except.error e →
        env.apply sha fs name = fsCopy fs kc.path env.configFile)) := by
  constructor
  · intro h
    have h1 : env.apply sha fs name =
        Except.error ("Cannot find config with name " ++ name) := by
      unfold KubEnv.apply
      rw [h]
    exact ⟨h1, by simp only [Sys.applyRun, h1]⟩
  · intro kc hkc
    constructor
    · intro hh
      have h1 : env.apply sha fs name =
          Except.error ("Config " ++ name ++ " already applied") := by
        unfold KubEnv.apply
        rw [hkc]
        dsimp only
        rw [hh]
        simp
      exact ⟨h1, by simp only [Sys.applyRun, h1]⟩
    · intro e he
      unfold KubEnv.apply
      rw [hkc]
      dsimp only
      rw [he]

/-- Witness for C6: the spec scenario apply("missing") on a fresh store
fails with the not-found error and mutates nothing. -/
theorem c6_apply_guards_witness :
    env0C.get_config_by_name "missing" = none ∧
    (KubEnv.apply shaW env0C [] "missing" =
       Except.error ("Cannot find config with name " ++ "missing") ∧
     Sys.applyRun shaW ⟨env0C, []⟩ "missing" = ⟨env0C, []⟩) :=
  ⟨rfl, (c6_apply_guards shaW env0C [] "missing").1 rfl⟩

/-- C7 counterexample: when the active-config file exists but is unreadable,
sync succeeds, yet a current configuration recorded by an earlier sync is
retained rather than cleared: currentConfig() does not yield none. -/
theorem c7_counterexample :
    KubEnv.sync shaW { env0C with current_config := some kcA } fsBad =
      Except.ok { env0C with current_config := some kcA } ∧
    ({ env0C with current_config := some kcA } : KubEnv).current_config ≠
      none :=
  ⟨rfl, by simp⟩

/-- C7 amended: sync succeeds even when the active-config file cannot be
hashed, but the stored current configuration is then left exactly as it was
before the call (none on a store that never recorded one, the stale value
otherwise), because update_current_config returns before touching it and
sync discards the error. -/
theorem c7_sync_tolerates_unreadable_active (sha : List Nat → String)
    (env : KubEnv) (fs : FS) (e : String)
    (h : get_file_hash sha fs (env.kube_dir ++ ["config"]) = Except.error e) :
    KubEnv.sync sha env fs = Except.ok (env.update_configs sha fs) ∧
    (KubEnv.syncRun sha env fs).current_config = env.current_config := by
  have hkd : (env.update_configs sha fs).kube_dir = env.kube_dir :=
    (update_configs_outer_fields sha env fs).2.1
  have hcc : (env.update_configs sha fs).current_config = env.current_config :=
    (update_configs_outer_fields sha env fs).1
  have hcfe : (env.update_configs sha fs).configFile = env.kube_dir ++ ["config"] := by
    unfold KubEnv.configFile
    rw [hkd]
  have hu : (env.update_configs sha fs).update_current_config sha fs =
      Except.error e := by
    unfold KubEnv.update_current_config
    rw [hcfe, h]
  have hs : KubEnv.sync sha env fs = Except.ok (env.update_configs sha fs) := by
    unfold KubEnv.sync
    dsimp only
    rw [hu]
  refine ⟨hs, ?_⟩
  unfold KubEnv.syncRun
  rw [hs]
  exact hcc

/-- Witness for C7's amended theorem: the stale-current-config fixture. -/
theorem c7_sync_tolerates_unreadable_active_witness :
    get_file_hash shaW fsBad
      (({ env0C with current_config := some kcA } : KubEnv).kube_dir ++
        ["config"]) = Except.error "Cannot get hash from file" ∧
    (KubEnv.sync shaW { env0C with current_config := some kcA } fsBad =
       Except.ok (({ env0C with current_config := some kcA } : KubEnv).update_configs
         shaW fsBad) ∧
     (KubEnv.syncRun shaW { env0C with current_config := some kcA } fsBad).current_config =
       ({ env0C with current_config := some kcA } : KubEnv).current_config) :=
  ⟨rfl, c7_sync_tolerates_unreadable_active shaW
    { env0C with current_config := some kcA } fsBad "Cannot get hash from file" rfl⟩

/-- C8: an import whose content digest is already indexed fails with the
duplicate-content error whether or not an explicit name was supplied, and
the filesystem is left exactly as it was: no file is created. -/
theorem c8_duplicate_content_rejected (sha : List Nat → String) (env : KubEnv)
    (fs : FS) (nm : Option String) (content : List Nat) (kc : KubeConfig)
    (h : env.get_config_by_hash (sha content) = some kc) :
    KubEnv.set_content sha env fs nm content =
      Except.error ("Config already exists with name: " ++ kc.name) ∧
    Sys.importRun sha ⟨env, fs⟩ nm content = ⟨env, fs⟩ := by
  have h1 : KubEnv.set_content sha env fs nm content =
      Except.error ("Config already exists with name: " ++ kc.name) := by
    unfold KubEnv.set_content
    dsimp only
    rw [h]
  exact ⟨h1, by simp only [Sys.importRun, h1]⟩

/-- Witness for C8: re-importing content [1] (digest dA) into a store that
already indexes kcA under dA, both without and with an explicit name. -/
theorem c8_duplicate_content_rejected_witness :
    (KubEnv.addSeq env0C [kcA]).get_config_by_hash (shaW [1]) = some kcA ∧
    KubEnv.set_content shaW (KubEnv.addSeq env0C [kcA]) [] none [1] =
      Except.error ("Config already exists with name: " ++ kcA.name) ∧
    KubEnv.set_content shaW (KubEnv.addSeq env0C [kcA]) [] (some "fresh") [1] =
      Except.error ("Config already exists with name: " ++ kcA.name) :=
  ⟨rfl,
   (c8_duplicate_content_rejected shaW (KubEnv.addSeq env0C [kcA]) [] none [1]
     kcA rfl).1,
   (c8_duplicate_content_rejected shaW (KubEnv.addSeq env0C [kcA]) []
     (some "fresh") [1] kcA rfl).1⟩

/-- C9: import and remove never touch the in-memory store: the store
component of the system state is unchanged, so list(), currentConfig() and
both lookups answer exactly as before the call (the index only changes at
the next sync). -/
theorem c9_import_remove_leave_index (sha : List Nat → String) (s : Sys)
    (nm : Option String) (content : List Nat) (rname : String) :
    (Sys.importRun sha s nm content).env = s.env ∧
    (Sys.removeRun s rname).env = s.env ∧
    (Sys.importRun sha s nm content).env.configs = s.env.configs ∧
    (Sys.importRun sha s nm content).env.current_config = s.env.current_config ∧
    (∀ n, (Sys.importRun sha s nm content).env.get_config_by_name n =
      s.env.get_config_by_name n) ∧
    (∀ h, (Sys.importRun sha s nm content).env.get_config_by_hash h =
      s.env.get_config_by_hash h) ∧
    (Sys.removeRun s rname).env.configs = s.env.configs ∧
    (Sys.removeRun s rname).env.current_config = s.env.current_config ∧
    (∀ n, (Sys.removeRun s rname).env.get_config_by_name n =
      s.env.get_config_by_name n) ∧
    (∀ h, (Sys.removeRun s rname).env.get_config_by_hash h =
      s.env.get_config_by_hash h) := by
  have h1 : (Sys.importRun sha s nm content).env = s.env := by
    unfold Sys.importRun
    cases s.env.set_content sha s.fs nm content <;> rfl
  have h2 : (Sys.removeRun s rname).env = s.env := by
    unfold Sys.removeRun
    cases s.env.remove s.fs rname <;> rfl
  rw [h1, h2]
  exact ⟨rfl, rfl, rfl, rfl, fun n => rfl, fun h => rfl, rfl, rfl,
    fun n => rfl, fun h => rfl⟩

/-- When the active file hashes to a digest whose value and 8-char-prefix
name are both missing from the index, update_current_config records it as
current and successfully adds it to the index. -/
theorem update_current_config_fresh {sha : List Nat → String} {env : KubEnv}
    {fs : FS} {hsh : String}
    (hh : get_file_hash sha fs env.configFile = Except.ok hsh)
    (hn : env.get_config_by_name (strTake hsh 8) = none)
    (hd : env.get_config_by_hash hsh = none) :
    env.update_current_config sha fs = Except.ok
      { env with
        current_config := some ⟨strTake hsh 8, env.configFile, hsh⟩
        configs := env.configs.insertIdx
          (computeInsertIndex env.configs ⟨strTake hsh 8, env.configFile, hsh⟩)
          ⟨strTake hsh 8, env.configFile, hsh⟩
        configs_by_name :=
          (strTake hsh 8, ⟨strTake hsh 8, env.configFile, hsh⟩) ::
            env.configs_by_name
        configs_by_hash :=
          (hsh, ⟨strTake hsh 8, env.configFile, hsh⟩) ::
            env.configs_by_hash } := by
  obtain ⟨fd, hget, hread, hsha⟩ := get_file_hash_ok_elim hh
  have hn' :
      ({ env with
         current_config := some (⟨strTake hsh 8, env.configFile, hsh⟩ : KubeConfig) } :
        KubEnv).get_config_by_name
        ((⟨strTake hsh 8, env.configFile, hsh⟩ : KubeConfig).name) = none := hn
  have hd' :
      ({ env with
         current_config := some (⟨strTake hsh 8, env.configFile, hsh⟩ : KubeConfig) } :
        KubEnv).get_config_by_hash
        ((⟨strTake hsh 8, env.configFile, hsh⟩ : KubeConfig).hash) = none := hd
  have hadd := add_of_fresh hn' hd'
  unfold KubEnv.update_current_config
  rw [hh]
  dsimp only
  rw [hget]
  simp only [Option.isSome_some, if_true]
  rw [show KubeConfig.new env.configFile hsh none =
    (⟨strTake hsh 8, env.configFile, hsh⟩ : KubeConfig) from rfl]
  rw [hadd]

/-- C10: when the active-config file exists and is hashable and neither its
digest nor its 8-character digest-prefix name occurs in the freshly rebuilt
index, sync inserts an extra profile named by the digest prefix whose
backing path is the active-config file itself; that entry is in list(), is
found by name lookup, its content is exported, and remove on it deletes the
active-config file. -/
theorem c10_active_file_indexed (sha : List Nat → String) (env : KubEnv)
    (fs : FS) (hsh : String)
    (hh : get_file_hash sha fs (env.kube_dir ++ ["config"]) = Except.ok hsh)
    (hn : (env.update_configs sha fs).get_config_by_name (strTake hsh 8) = none)
    (hd : (env.update_configs sha fs).get_config_by_hash hsh = none) :
    ∃ env2, KubEnv.sync sha env fs = Except.ok env2 ∧
      env2.current_config =
        some ⟨strTake hsh 8, env.kube_dir ++ ["config"], hsh⟩ ∧
      (⟨strTake hsh 8, env.kube_dir ++ ["config"], hsh⟩ : KubeConfig) ∈
        env2.configs ∧
      env2.get_config_by_name (strTake hsh 8) =
        some ⟨strTake hsh 8, env.kube_dir ++ ["config"], hsh⟩ ∧
      (∃ fd, FS.get fs (env.kube_dir ++ ["config"]) = some fd ∧
        KubEnv.get_content env2 fs (strTake hsh 8) = Except.ok fd.content) ∧
      KubEnv.remove env2 fs (strTake hsh 8) =
        Except.ok (FS.eraseFile fs (env.kube_dir ++ ["config"])) := by
  obtain ⟨fd, hget, hread, hsha⟩ := get_file_hash_ok_elim hh
  have hkd : (env.update_configs sha fs).kube_dir = env.kube_dir :=
    (update_configs_outer_fields sha env fs).2.1
  have hcfe : (env.update_configs sha fs).configFile =
      env.kube_dir ++ ["config"] := by
    unfold KubEnv.configFile
    rw [hkd]
  have hh1 : get_file_hash sha fs (env.update_configs sha fs).configFile =
      Except.ok hsh := by
    rw [hcfe]
    exact hh
  have hupd := update_current_config_fresh hh1 hn hd
  rw [hcfe] at hupd
  have hlook : ({ env.update_configs sha fs with
      current_config :=
        some ⟨strTake hsh 8, env.kube_dir ++ ["config"], hsh⟩
      configs := (env.update_configs sha fs).configs.insertIdx
        (computeInsertIndex (env.update_configs sha fs).configs
          ⟨strTake hsh 8, env.kube_dir ++ ["config"], hsh⟩)
        ⟨strTake hsh 8, env.kube_dir ++ ["config"], hsh⟩
      configs_by_name :=
        (strTake hsh 8, ⟨strTake hsh 8, env.kube_dir ++ ["config"], hsh⟩) ::
          (env.update_configs sha fs).configs_by_name
      configs_by_hash :=
        (hsh, ⟨strTake hsh 8, env.kube_dir ++ ["config"], hsh⟩) ::
          (env.update_configs sha fs).configs_by_hash } :
        KubEnv).get_config_by_name (strTake hsh 8) =
      some ⟨strTake hsh 8, env.kube_dir ++ ["config"], hsh⟩ :=
    lookupA_cons_self _ _ _
  refine ⟨_, ?_, rfl, ?_, hlook, ⟨fd, hget, ?_⟩, ?_⟩
  · unfold KubEnv.sync
    dsimp only
    rw [hupd]
  · exact (List.perm_insertIdx _ _
      (computeInsertIndex_le _ _)).mem_iff.mpr (List.mem_cons_self _ _)
  · unfold KubEnv.get_content
    rw [hlook]
    dsimp only
    rw [hget]
  · unfold KubEnv.remove
    rw [hlook]
    dsimp only
    rw [hget]

/-- Witness for C10: the active-only fixture, whose digest dA and prefix
name are absent from the (empty) rebuilt index. -/
theorem c10_active_file_indexed_witness :
    get_file_hash shaW fsActiveOnly (env0C.kube_dir ++ ["config"]) =
      Except.ok dA ∧
    (env0C.update_configs shaW fsActiveOnly).get_config_by_name
      (strTake dA 8) = none ∧
    (env0C.update_configs shaW fsActiveOnly).get_config_by_hash dA = none ∧
    (∃ env2, KubEnv.sync shaW env0C fsActiveOnly = Except.ok env2 ∧
      env2.current_config =
        some ⟨strTake dA 8, env0C.kube_dir ++ ["config"], dA⟩ ∧
      (⟨strTake dA 8, env0C.kube_dir ++ ["config"], dA⟩ : KubeConfig) ∈
        env2.configs ∧
      env2.get_config_by_name (strTake dA 8) =
        some ⟨strTake dA 8, env0C.kube_dir ++ ["config"], dA⟩ ∧
      (∃ fd, FS.get fsActiveOnly (env0C.kube_dir ++ ["config"]) = some fd ∧
        KubEnv.get_content env2 fsActiveOnly (strTake dA 8) =
          Except.ok fd.content) ∧
      KubEnv.remove env2 fsActiveOnly (strTake dA 8) =
        Except.ok (FS.eraseFile fsActiveOnly (env0C.kube_dir ++ ["config"]))) :=
  ⟨rfl, rfl, rfl,
   c10_active_file_indexed shaW env0C fsActiveOnly dA rfl rfl rfl⟩
